import Mathlib

/-!
# Verification of the candy_world map generator

A shallow embedding of `src/tools/generate_map.py` (the placement-manifest
generator) together with proofs and refutations of the specification's claims
about it.

The Python generator draws from the process-wide random source.  Here every
random draw is an explicit parameter: a `Tape` supplies, for each phase, the
values that `random.uniform`, `random.randint`, `random.random` and
`random.choice` would have produced.  Validity predicates (`ValidTape` and
friends) record exactly the ranges the Python random calls guarantee.
Python floats are modelled as exact arithmetic: draws are rationals (any float
is a rational), geometry is over `ℝ` because the hard-coded fairy-ring angles
have irrational cosines.  Boolean draws (`random.random() < 0.5` and the like)
are modelled as the resulting `Bool`.
-/

namespace CandyWorld

open Classical

/-- `OUTPUT_FILE = "assets/map.json"` from the source. -/
def OUTPUT_FILE : String := "assets/map.json"

/-- `MAP_RADIUS = 150` from the source. -/
def MAP_RADIUS : ℚ := 150

/-- `GRASS_COUNT = 3000` from the source. -/
def GRASS_COUNT : ℕ := 3000

/-- `RHYTHM_TYPES` from the source. -/
def RHYTHM_TYPES : List String :=
  ["kick_drum_geyser", "snare_trap", "cymbal_dandelion", "subwoofer_lotus",
   "accordion_palm"]

/-- `MELODY_TYPES` from the source. -/
def MELODY_TYPES : List String :=
  ["arpeggio_fern", "vibrato_violet", "tremolo_tulip", "prism_rose_bush",
   "portamento_pine"]

/-- `SCATTER_TYPES` from the source. -/
def SCATTER_TYPES : List String :=
  ["bubble_willow", "fiber_optic_willow", "balloon_bush", "helix_plant",
   "wisteria_cluster", "floating_orb", "cloud"]

/-- `FILLER_TYPES` from the source. -/
def FILLER_TYPES : List String :=
  ["mushroom", "flower", "starflower"]

/-- One emitted record of the manifest.  The Python code emits dicts; optional
keys (`scale`, `size`, `variant`, `hasFace`) are `Option` fields, `none`
meaning the key is absent. -/
structure Item where
  type : String
  pos : ℝ × ℝ × ℝ
  scale : Option ℝ := none
  size : Option ℝ := none
  variant : Option String := none
  hasFace : Option Bool := none

/-- Horizontal coordinates of an item: `x` and `z` of its position. -/
def Item.x (it : Item) : ℝ := it.pos.1

/-- The `y` (altitude) coordinate of an item's position. -/
def Item.y (it : Item) : ℝ := it.pos.2.1

/-- The `z` coordinate of an item's position. -/
def Item.z (it : Item) : ℝ := it.pos.2.2

/-- `get_random_position(min_dist, max_dist)` from the source, with the two
uniform draws (`angle` and `dist`) made explicit:
`x = cos(angle) * dist`, `z = sin(angle) * dist`. -/
noncomputable def get_random_position (angle : ℝ) (dist : ℚ) : ℝ × ℝ :=
  (Real.cos angle * dist, Real.sin angle * dist)

/-- A sample drawn by one call of `get_random_position`: the `angle` draw
(any real; its range constraint is irrelevant, cosine being periodic) and the
`dist` draw (a rational in `[min_dist, max_dist]`). -/
noncomputable def samplePos (ad : ℝ × ℚ) : ℝ × ℝ :=
  get_random_position ad.1 ad.2

/-- The acceptance test of the scatter/filler rejection loops:
`x*x + z*z >= 20*20`. -/
def accept20 (p : ℝ × ℝ) : Prop := 400 ≤ p.1 ^ 2 + p.2 ^ 2

/-- The same loop family with the exclusion-zone radius as a parameter:
a candidate is accepted when it lies outside the zone of radius `R` around
the origin (the source hard-codes `R = 20`). -/
def acceptZone (R : ℚ) (p : ℝ × ℝ) : Prop := (R : ℝ) ^ 2 ≤ p.1 ^ 2 + p.2 ^ 2

/-- Fuel-indexed unfolding of the source's `while not valid:` rejection loop:
`whileFuel acc s n` inspects the first `n` samples of the stream `s` and
returns the first accepted position, or `none` when none of the first `n`
samples is accepted (the loop is still spinning after `n` attempts).  The
source's loop itself carries no fuel: it corresponds to the limit over all
`n`. -/
noncomputable def whileFuel (acc : ℝ × ℝ → Prop) (s : ℕ → ℝ × ℚ) : ℕ → Option (ℝ × ℝ)
  | 0 => none
  | n + 1 =>
    if acc (samplePos (s 0)) then some (samplePos (s 0))
    else whileFuel acc (fun k => s (k + 1)) n

/-- Denotation of the source's unbounded `while not valid:` loop over the
`accept20` test: the first accepted sample of the stream when one exists
(the loop's result), and a junk value when the loop would never terminate. -/
noncomputable def whileNotValid (s : ℕ → ℝ × ℚ) : ℝ × ℝ :=
  if h : ∃ n, accept20 (samplePos (s n)) then samplePos (s (Nat.find h))
  else (0, 0)

/-- The angle of fairy-ring item `i`:
`angle = (i / ring_count) * 2 * math.pi` with `ring_count = 6`. -/
noncomputable def ringAngle (i : ℕ) : ℝ := ((i : ℝ) / 6) * (2 * Real.pi)

/-- One fairy-ring item (`generate_map`, phase 1): index `i` of 6, placed at
angle `ringAngle i` on the circle of radius 12 around `(60, -40)`, with
constant scale `1.5`, variant `"giant"` and `hasFace = True`. -/
noncomputable def ringItem (i : ℕ) : Item :=
  let angle : ℝ := ringAngle i
  { type := "mushroom"
    pos := (60 + Real.cos angle * 12, 0, -40 + Real.sin angle * 12)
    scale := some 1.5
    variant := some "giant"
    hasFace := some true }

/-- Phase 1 of `generate_map`: the hardcoded fairy ring,
`for i in range(ring_count)` with `ring_count = 6`. -/
noncomputable def fairyRing : List Item := (List.range 6).map ringItem

/-- The draws consumed by one item of a cluster: the `random.choice` index
into the family's type list, the offset draws `theta` and `r`, and the scale
draw (the source draws the scale only after the safety check accepts the
item; a skipped item simply leaves its `scale` field unused). -/
structure ClusterItemDraw where
  typeIdx : ℕ
  offAngle : ℝ
  offR : ℚ
  scale : ℚ

/-- The draws consumed by one cluster: the `random.random() < 0.5` rhythm
test (as its Boolean result), the cluster-center draws for
`get_random_position(30, MAP_RADIUS * 0.8)`, and one `ClusterItemDraw` per
iteration of the inner loop (`count = random.randint(5, 12)` is the length
of `items`). -/
structure ClusterDraw where
  isRhythm : Bool
  centerAngle : ℝ
  centerDist : ℚ
  items : List ClusterItemDraw

/-- The body of the cluster inner loop (`generate_map`, phase 2): scatter an
item around the cluster center `(cx, cz)`, dropping it (`continue`) when
`x*x + z*z < 20*20`. -/
noncomputable def clusterItem (cx cz : ℝ) (tl : List String)
    (d : ClusterItemDraw) : Option Item :=
  let x := cx + Real.cos d.offAngle * (d.offR : ℝ)
  let z := cz + Real.sin d.offAngle * (d.offR : ℝ)
  if x ^ 2 + z ^ 2 < 400 then none
  else some
    { type := tl.getD d.typeIdx ""
      pos := (x, 0, z)
      scale := some (d.scale : ℝ) }

/-- One cluster (`generate_map`, phase 2): pick the family by the rhythm
test, the center by `get_random_position(30, MAP_RADIUS * 0.8)`, then run the
inner loop; dropped candidates reduce the cluster's emitted count. -/
noncomputable def clusterItems (c : ClusterDraw) : List Item :=
  let p := get_random_position c.centerAngle c.centerDist
  let tl := if c.isRhythm then RHYTHM_TYPES else MELODY_TYPES
  c.items.filterMap (clusterItem p.1 p.2 tl)

/-- The draws consumed by one global-scatter item: the `random.choice` index
into `SCATTER_TYPES`, the stream of `(angle, dist)` pairs consumed by the
rejection loop's calls to `get_random_position(20, MAP_RADIUS)`, the base
scale draw `uniform(0.9, 1.5)`, and the cloud-branch draws
`y = uniform(40, 70)` and `scale = uniform(1.5, 2.5)`. -/
structure ScatterDraw where
  typeIdx : ℕ
  samples : ℕ → ℝ × ℚ
  scale1 : ℚ
  yCloud : ℚ
  scale2 : ℚ

/-- The body of the global-scatter loop (`generate_map`, phase 3). -/
noncomputable def scatterItem (d : ScatterDraw) : Item :=
  let type_name := SCATTER_TYPES.getD d.typeIdx ""
  let p := whileNotValid d.samples
  if type_name = "cloud" then
    { type := type_name
      pos := (p.1, (d.yCloud : ℝ), p.2)
      size := some (d.scale2 : ℝ) }
  else if type_name = "floating_orb" then
    { type := type_name
      pos := (p.1, 0, p.2)
      scale := some (d.scale1 : ℝ) }
  else
    { type := type_name
      pos := (p.1, 0, p.2)
      scale := some (d.scale1 : ℝ) }

/-- The draws consumed by one filler item: the `random.choice` index into
`FILLER_TYPES`, the rejection-loop sample stream, the scale draw
`uniform(0.7, 1.2)`, and the Boolean results of the variant rolls
(`random.random() < 0.2` for glowing flowers, `random.random() > 0.1`
failing for giant mushrooms). -/
structure FillerDraw where
  typeIdx : ℕ
  samples : ℕ → ℝ × ℚ
  scale : ℚ
  isGlow : Bool
  isGiant : Bool

/-- The body of the filler loop (`generate_map`, phase 4): flowers get
variant `"glowing"` on the 20% roll; mushrooms always get a variant,
`"giant"` on the 10% roll and `"regular"` otherwise.  No scale multiplier is
applied in either case. -/
noncomputable def fillerItem (d : FillerDraw) : Item :=
  let type_name := FILLER_TYPES.getD d.typeIdx ""
  let p := whileNotValid d.samples
  let base : Item :=
    { type := type_name
      pos := (p.1, 0, p.2)
      scale := some (d.scale : ℝ) }
  if type_name = "flower" then
    if d.isGlow then { base with variant := some "glowing" } else base
  else if type_name = "mushroom" then
    { base with variant := some (if d.isGiant then "giant" else "regular") }
  else base

/-- The draws consumed by one grass blade: the `get_random_position(0,
MAP_RADIUS)` draws and the scale draw `uniform(0.7, 1.3)`. -/
structure GrassDraw where
  angle : ℝ
  dist : ℚ
  scale : ℚ

/-- The body of the grass loop (`generate_map`, phase 5): grass is placed
anywhere in the disc of radius `MAP_RADIUS` with no safety check. -/
noncomputable def grassItem (d : GrassDraw) : Item :=
  let p := get_random_position d.angle d.dist
  { type := "grass"
    pos := (p.1, 0, p.2)
    scale := some (d.scale : ℝ) }

/-- All random draws of one run of `generate_map`, phase by phase. -/
structure Tape where
  clusters : ℕ → ClusterDraw
  scatters : ℕ → ScatterDraw
  fillers : ℕ → FillerDraw
  grass : ℕ → GrassDraw

/-- Phase 2 of `generate_map`: `for _ in range(num_clusters)` with
`num_clusters = 12`. -/
noncomputable def clusterPhase (t : Tape) : List Item :=
  (List.range 12).flatMap (fun i => clusterItems (t.clusters i))

/-- Phase 3 of `generate_map`: `for _ in range(50)` scatter items. -/
noncomputable def scatterPhase (t : Tape) : List Item :=
  (List.range 50).map (fun i => scatterItem (t.scatters i))

/-- Phase 4 of `generate_map`: `for _ in range(50)` filler items. -/
noncomputable def fillerPhase (t : Tape) : List Item :=
  (List.range 50).map (fun i => fillerItem (t.fillers i))

/-- Phase 5 of `generate_map`: `for _ in range(GRASS_COUNT)` grass blades. -/
noncomputable def grassPhase (t : Tape) : List Item :=
  (List.range GRASS_COUNT).map (fun i => grassItem (t.grass i))

/-- `generate_map` from the source: one list `items`, appended to by the five
phases in order (fairy ring, clusters, global scatter, filler, grass). -/
noncomputable def generate_map (t : Tape) : List Item :=
  fairyRing ++ clusterPhase t ++ scatterPhase t ++ fillerPhase t ++ grassPhase t

/-- Range guarantees of the draws of one cluster item: `random.choice` picks
a real index of the 5-element family list, `r = uniform(0, 8)`,
`scale = uniform(0.8, 1.2)`. -/
def ValidClusterItem (d : ClusterItemDraw) : Prop :=
  d.typeIdx < 5 ∧ 0 ≤ d.offR ∧ d.offR ≤ 8 ∧
  (0.8 : ℚ) ≤ d.scale ∧ d.scale ≤ 1.2

/-- Range guarantees of the draws of one cluster: the center distance comes
from `uniform(30, MAP_RADIUS * 0.8)` and `count = random.randint(5, 12)`. -/
def ValidCluster (c : ClusterDraw) : Prop :=
  30 ≤ c.centerDist ∧ c.centerDist ≤ 120 ∧
  5 ≤ c.items.length ∧ c.items.length ≤ 12 ∧
  ∀ d ∈ c.items, ValidClusterItem d

/-- Range guarantees of the draws of one scatter item: the type index picks
into the 7-element `SCATTER_TYPES`, every rejection-loop sample has
`dist = uniform(20, MAP_RADIUS)`, and the three uniform draws keep their
declared ranges. -/
def ValidScatter (s : ScatterDraw) : Prop :=
  s.typeIdx < 7 ∧ (∀ n, 20 ≤ (s.samples n).2 ∧ (s.samples n).2 ≤ 150) ∧
  (0.9 : ℚ) ≤ s.scale1 ∧ s.scale1 ≤ 1.5 ∧
  40 ≤ s.yCloud ∧ s.yCloud ≤ 70 ∧
  (1.5 : ℚ) ≤ s.scale2 ∧ s.scale2 ≤ 2.5

/-- Range guarantees of the draws of one filler item. -/
def ValidFiller (f : FillerDraw) : Prop :=
  f.typeIdx < 3 ∧ (∀ n, 20 ≤ (f.samples n).2 ∧ (f.samples n).2 ≤ 150) ∧
  (0.7 : ℚ) ≤ f.scale ∧ f.scale ≤ 1.2

/-- Range guarantees of the draws of one grass blade. -/
def ValidGrass (g : GrassDraw) : Prop :=
  0 ≤ g.dist ∧ g.dist ≤ 150 ∧ (0.7 : ℚ) ≤ g.scale ∧ g.scale ≤ 1.3

/-- A tape whose every draw lies in the range the Python random calls
guarantee. -/
def ValidTape (t : Tape) : Prop :=
  (∀ i, ValidCluster (t.clusters i)) ∧ (∀ i, ValidScatter (t.scatters i)) ∧
  (∀ i, ValidFiller (t.fillers i)) ∧ (∀ i, ValidGrass (t.grass i))

/-- In exact arithmetic the squared norm of a sampled position is exactly
the square of the distance draw. -/
lemma samplePos_sq_norm (a : ℝ) (d : ℚ) :
    (samplePos (a, d)).1 ^ 2 + (samplePos (a, d)).2 ^ 2 = (d : ℝ) ^ 2 := by
  have h := Real.sin_sq_add_cos_sq a
  simp only [samplePos, get_random_position]
  ring_nf
  nlinarith [h]

/-- A sample whose distance draw is at least 20 passes the `x*x + z*z >=
20*20` acceptance test. -/
lemma accept20_of_dist {a : ℝ} {d : ℚ} (h : 20 ≤ d) :
    accept20 (samplePos (a, d)) := by
  have hd : (20 : ℝ) ≤ (d : ℝ) := by exact_mod_cast h
  have := samplePos_sq_norm a d
  unfold accept20
  nlinarith

/-- When the first sample of the stream is accepted, the `while not valid:`
loop returns it: the loop runs exactly one iteration. -/
lemma whileNotValid_eq_first {s : ℕ → ℝ × ℚ}
    (h0 : accept20 (samplePos (s 0))) : whileNotValid s = samplePos (s 0) := by
  unfold whileNotValid
  have hex : ∃ n, accept20 (samplePos (s n)) := ⟨0, h0⟩
  rw [dif_pos hex]
  congr 1
  exact congrArg s ((Nat.find_eq_zero hex).mpr h0)

/-- Whatever the loop returns (when it terminates) passes the acceptance
test. -/
lemma whileNotValid_accept {s : ℕ → ℝ × ℚ}
    (h : ∃ n, accept20 (samplePos (s n))) : accept20 (whileNotValid s) := by
  unfold whileNotValid
  rw [dif_pos h]
  exact Nat.find_spec h

/-- A valid sample stream (every distance draw in `[20, 150]`) makes the
loop accept its first sample. -/
lemma whileNotValid_of_valid {s : ℕ → ℝ × ℚ}
    (h : ∀ n, 20 ≤ (s n).2 ∧ (s n).2 ≤ 150) :
    whileNotValid s = samplePos (s 0) ∧ accept20 (whileNotValid s) := by
  have h0 : accept20 (samplePos (s 0)) := by
    have := (h 0).1
    calc (400 : ℝ) ≤ (20 : ℝ) ^ 2 := by norm_num
    _ ≤ ((s 0).2 : ℝ) ^ 2 := by
        have : (20 : ℝ) ≤ ((s 0).2 : ℝ) := by exact_mod_cast this
        nlinarith
    _ = (samplePos (s 0)).1 ^ 2 + (samplePos (s 0)).2 ^ 2 := by
        rw [samplePos_sq_norm (s 0).1 (s 0).2]
  exact ⟨whileNotValid_eq_first h0, by
    rw [whileNotValid_eq_first h0]; exact h0⟩

/-- Shape of a scatter item: in every branch the horizontal coordinates are
those returned by the rejection loop. -/
lemma scatterItem_xz (d : ScatterDraw) :
    (scatterItem d).x = (whileNotValid d.samples).1 ∧
    (scatterItem d).z = (whileNotValid d.samples).2 := by
  simp only [scatterItem, Item.x, Item.z]
  split_ifs <;> exact ⟨rfl, rfl⟩

/-- Shape of a scatter item: the type is the chosen element of
`SCATTER_TYPES`, and no scatter item carries a `hasFace` key. -/
lemma scatterItem_type_hasFace (d : ScatterDraw) :
    (scatterItem d).type = SCATTER_TYPES.getD d.typeIdx "" ∧
    (scatterItem d).hasFace = none := by
  simp only [scatterItem]
  split_ifs <;> exact ⟨rfl, rfl⟩

/-- Shape of a filler item: horizontal coordinates from the rejection loop,
type from `FILLER_TYPES`, the unmultiplied scale draw, and no `hasFace`
key. -/
lemma fillerItem_shape (d : FillerDraw) :
    (fillerItem d).x = (whileNotValid d.samples).1 ∧
    (fillerItem d).z = (whileNotValid d.samples).2 ∧
    (fillerItem d).type = FILLER_TYPES.getD d.typeIdx "" ∧
    (fillerItem d).scale = some (d.scale : ℝ) ∧
    (fillerItem d).hasFace = none := by
  simp only [fillerItem, Item.x, Item.z]
  split_ifs <;> exact ⟨rfl, rfl, rfl, rfl, rfl⟩

/-- Characterization of an accepted cluster item: the `continue` guard
guarantees the safety bound, and the remaining fields are as constructed. -/
lemma clusterItem_some {cx cz : ℝ} {tl : List String} {d : ClusterItemDraw}
    {it : Item} (h : clusterItem cx cz tl d = some it) :
    400 ≤ it.x ^ 2 + it.z ^ 2 ∧ it.type = tl.getD d.typeIdx "" ∧
    it.scale = some (d.scale : ℝ) ∧ it.hasFace = none ∧ it.y = 0 := by
  unfold clusterItem at h
  by_cases hc :
      (cx + Real.cos d.offAngle * (d.offR : ℝ)) ^ 2 +
        (cz + Real.sin d.offAngle * (d.offR : ℝ)) ^ 2 < 400
  · rw [if_pos hc] at h
    exact absurd h (by simp)
  · rw [if_neg hc] at h
    obtain rfl := (Option.some_inj.mp h).symm
    refine ⟨le_of_not_lt hc, rfl, rfl, rfl, rfl⟩

/-- Membership in the cluster phase comes from one of the 12 clusters'
accepted candidates. -/
lemma mem_clusterPhase {t : Tape} {it : Item} (h : it ∈ clusterPhase t) :
    ∃ i < 12, ∃ d ∈ (t.clusters i).items,
      clusterItem (get_random_position (t.clusters i).centerAngle
          (t.clusters i).centerDist).1
        (get_random_position (t.clusters i).centerAngle
          (t.clusters i).centerDist).2
        (if (t.clusters i).isRhythm then RHYTHM_TYPES else MELODY_TYPES) d
        = some it := by
  unfold clusterPhase at h
  rw [List.mem_flatMap] at h
  obtain ⟨i, hi, hmem⟩ := h
  rw [List.mem_range] at hi
  refine ⟨i, hi, ?_⟩
  unfold clusterItems at hmem
  rw [List.mem_filterMap] at hmem
  exact hmem

/-- Membership in the scatter phase. -/
lemma mem_scatterPhase {t : Tape} {it : Item} (h : it ∈ scatterPhase t) :
    ∃ i < 50, it = scatterItem (t.scatters i) := by
  unfold scatterPhase at h
  rw [List.mem_map] at h
  obtain ⟨i, hi, rfl⟩ := h
  exact ⟨i, List.mem_range.mp hi, rfl⟩

/-- Membership in the filler phase. -/
lemma mem_fillerPhase {t : Tape} {it : Item} (h : it ∈ fillerPhase t) :
    ∃ i < 50, it = fillerItem (t.fillers i) := by
  unfold fillerPhase at h
  rw [List.mem_map] at h
  obtain ⟨i, hi, rfl⟩ := h
  exact ⟨i, List.mem_range.mp hi, rfl⟩

/-- Membership in the grass phase. -/
lemma mem_grassPhase {t : Tape} {it : Item} (h : it ∈ grassPhase t) :
    ∃ i < GRASS_COUNT, it = grassItem (t.grass i) := by
  unfold grassPhase at h
  rw [List.mem_map] at h
  obtain ⟨i, hi, rfl⟩ := h
  exact ⟨i, List.mem_range.mp hi, rfl⟩

/-- Every fairy-ring item keeps squared distance at least 400 from the
origin: the ring circle (center `(60, -40)`, radius 12) lies far outside the
safe disc. -/
lemma ring_safe {it : Item} (h : it ∈ fairyRing) :
    400 ≤ it.x ^ 2 + it.z ^ 2 := by
  unfold fairyRing at h
  rw [List.mem_map] at h
  obtain ⟨i, _, rfl⟩ := h
  unfold ringItem Item.x Item.z
  have hc := Real.neg_one_le_cos (ringAngle i)
  have hc' := Real.cos_le_one (ringAngle i)
  have hs := Real.neg_one_le_sin (ringAngle i)
  have hs' := Real.sin_le_one (ringAngle i)
  simp only
  nlinarith [hc, hc', hs, hs']

/-- Every cluster-phase item keeps squared distance at least 400 from the
origin, for every tape: the `continue` guard enforces it. -/
lemma cluster_safe {t : Tape} {it : Item} (h : it ∈ clusterPhase t) :
    400 ≤ it.x ^ 2 + it.z ^ 2 := by
  obtain ⟨i, _, d, _, hsome⟩ := mem_clusterPhase h
  exact (clusterItem_some hsome).1

/-- Every scatter-phase item of a valid run keeps squared distance at least
400 from the origin. -/
lemma scatter_safe {t : Tape} (ht : ValidTape t) {it : Item}
    (h : it ∈ scatterPhase t) : 400 ≤ it.x ^ 2 + it.z ^ 2 := by
  obtain ⟨i, _, rfl⟩ := mem_scatterPhase h
  obtain ⟨hx, hz⟩ := scatterItem_xz (t.scatters i)
  rw [hx, hz]
  exact whileNotValid_accept
    ⟨0, by
      have := (ht.2.1 i).2.1 0
      exact accept20_of_dist this.1⟩

/-- Every filler-phase item of a valid run keeps squared distance at least
400 from the origin. -/
lemma filler_safe {t : Tape} (ht : ValidTape t) {it : Item}
    (h : it ∈ fillerPhase t) : 400 ≤ it.x ^ 2 + it.z ^ 2 := by
  obtain ⟨i, _, rfl⟩ := mem_fillerPhase h
  obtain ⟨hx, hz, -, -, -⟩ := fillerItem_shape (t.fillers i)
  rw [hx, hz]
  exact whileNotValid_accept
    ⟨0, by
      have := (ht.2.2.1 i).2.1 0
      exact accept20_of_dist this.1⟩

/-- A squared-distance bound gives the distance bound of the claim. -/
lemma twenty_le_sqrt {q : ℝ} (h : 400 ≤ q) : 20 ≤ Real.sqrt q := by
  have h1 : Real.sqrt 400 ≤ Real.sqrt q := Real.sqrt_le_sqrt h
  rwa [show (400 : ℝ) = 20 ^ 2 by norm_num,
    Real.sqrt_sq (by norm_num : (0 : ℝ) ≤ 20)] at h1

/-- Grass items carry the literal type `"grass"`. -/
lemma grassItem_type (d : GrassDraw) : (grassItem d).type = "grass" := rfl

/-- A typical cluster-item draw: first type of the family, no offset,
scale 1. -/
def cCI : ClusterItemDraw := ⟨0, 0, 0, 1⟩

/-- A typical cluster draw: rhythm family, center at distance 40 on the
positive x-axis, 5 items. -/
def cCluster : ClusterDraw := ⟨true, 0, 40, List.replicate 5 cCI⟩

/-- A typical scatter draw: first scatter type, every loop sample at
distance 72 on the positive x-axis. -/
def cScatter : ScatterDraw := ⟨0, fun _ => (0, 72), 1, 50, 2⟩

/-- A typical filler draw: a mushroom at distance 72, scale 1, both variant
rolls failing. -/
def cFiller : FillerDraw := ⟨0, fun _ => (0, 72), 1, false, false⟩

/-- A typical grass draw. -/
def cGrass : GrassDraw := ⟨0, 30, 1⟩

/-- A concrete tape made of the typical draws, used to instantiate the
universally quantified theorems. -/
def baseTape : Tape :=
  ⟨fun _ => cCluster, fun _ => cScatter, fun _ => cFiller, fun _ => cGrass⟩

/-- The typical tape satisfies every range guarantee. -/
lemma baseTape_valid : ValidTape baseTape := by
  refine ⟨fun i => ?_, fun i => ?_, fun i => ?_, fun i => ?_⟩
  · refine ⟨by norm_num [baseTape, cCluster], by norm_num [baseTape, cCluster],
      by simp [baseTape, cCluster], by simp [baseTape, cCluster], ?_⟩
    intro d hd
    have : d = cCI := List.eq_of_mem_replicate hd
    subst this
    refine ⟨by norm_num [cCI], by norm_num [cCI], by norm_num [cCI],
      by norm_num [cCI], by norm_num [cCI]⟩
  · exact ⟨by norm_num [baseTape, cScatter],
      fun n => ⟨by norm_num [baseTape, cScatter], by norm_num [baseTape, cScatter]⟩,
      by norm_num [baseTape, cScatter], by norm_num [baseTape, cScatter],
      by norm_num [baseTape, cScatter], by norm_num [baseTape, cScatter],
      by norm_num [baseTape, cScatter], by norm_num [baseTape, cScatter]⟩
  · exact ⟨by norm_num [baseTape, cFiller],
      fun n => ⟨by norm_num [baseTape, cFiller], by norm_num [baseTape, cFiller]⟩,
      by norm_num [baseTape, cFiller], by norm_num [baseTape, cFiller]⟩
  · exact ⟨by norm_num [baseTape, cGrass], by norm_num [baseTape, cGrass],
      by norm_num [baseTape, cGrass], by norm_num [baseTape, cGrass]⟩

/-- C1: for every run of `generate_map` (every valid tape), every emitted
item whose type is not `"grass"` has horizontal distance
`sqrt(x^2 + z^2)` from the origin of at least 20 units; grass items are
exempt (and are indeed the only items placed without the check). -/
theorem c1_safe_zone (t : Tape) (ht : ValidTape t) :
    ∀ it ∈ generate_map t, it.type ≠ "grass" →
      20 ≤ Real.sqrt (it.x ^ 2 + it.z ^ 2) := by
  intro it hmem hty
  simp only [generate_map, List.mem_append] at hmem
  rcases hmem with ((((h | h) | h) | h) | h)
  · exact twenty_le_sqrt (ring_safe h)
  · exact twenty_le_sqrt (cluster_safe h)
  · exact twenty_le_sqrt (scatter_safe ht h)
  · exact twenty_le_sqrt (filler_safe ht h)
  · obtain ⟨i, -, rfl⟩ := mem_grassPhase h
    exact absurd (grassItem_type (t.grass i)) hty

/-- Witness for C1: the first fairy-ring mushroom of the typical run is a
non-grass item, and the theorem bounds its distance from the origin. -/
theorem c1_safe_zone_witness :
    20 ≤ Real.sqrt ((ringItem 0).x ^ 2 + (ringItem 0).z ^ 2) :=
  c1_safe_zone baseTape baseTape_valid (ringItem 0)
    (List.mem_append_left _ (List.mem_append_left _ (List.mem_append_left _
      (List.mem_append_left _ (by
        unfold fairyRing
        exact List.mem_map_of_mem ringItem (show 0 ∈ List.range 6 by decide))))))
    (by rw [show (ringItem 0).type = "mushroom" from rfl]; decide)

/-- Default record used with `List.getD`. -/
def defaultItem : Item := { type := "", pos := (0, 0, 0) }

/-- Fairy-ring items carry `hasFace = some true`. -/
lemma ringItem_hasFace (i : ℕ) : (ringItem i).hasFace = some true := rfl

/-- Every fairy-ring item lies exactly on the circle of radius 12 around
`(60, -40)`. -/
lemma ringItem_circle (n : ℕ) :
    ((ringItem n).x - 60) ^ 2 + ((ringItem n).z - (-40)) ^ 2 = 12 ^ 2 := by
  unfold ringItem Item.x Item.z
  simp only
  linear_combination 144 * (Real.sin_sq_add_cos_sq (ringAngle n))

/-- C4: the feature placer deterministically emits exactly 6 items, each of
type `"mushroom"` with the explicit constants `scale = 1.5` and
`variant = "giant"`, each lying on the circle of radius 12 centered at
`(60, -40)` at angle `ringAngle i`; the angular spacing of consecutive items
is exactly `2 * pi / 6`. -/
theorem c4_fairy_ring :
    fairyRing.length = 6 ∧
    (∀ i : Fin 6,
      fairyRing.getD i.val defaultItem = ringItem i.val ∧
      (ringItem i.val).type = "mushroom" ∧
      (ringItem i.val).scale = some 1.5 ∧
      (ringItem i.val).variant = some "giant" ∧
      ((ringItem i.val).x - 60) ^ 2 + ((ringItem i.val).z - (-40)) ^ 2
        = 12 ^ 2) ∧
    (∀ i : Fin 6, ringAngle (i.val + 1) - ringAngle i.val = 2 * Real.pi / 6) := by
  refine ⟨by simp [fairyRing], fun i => ?_, fun i => ?_⟩
  · refine ⟨?_, rfl, rfl, rfl, ringItem_circle i.val⟩
    fin_cases i <;> rfl
  · unfold ringAngle
    push_cast
    ring

/-- C9: each of the 6 feature-placed fairy-ring records carries
`hasFace = some true`, and no record emitted by any other phase carries a
`hasFace` key at all, on every run. -/
theorem c9_hasFace_only_ring (t : Tape) :
    fairyRing.length = 6 ∧
    (∀ it ∈ fairyRing, it.hasFace = some true) ∧
    (∀ it, it ∈ clusterPhase t ∨ it ∈ scatterPhase t ∨ it ∈ fillerPhase t ∨
      it ∈ grassPhase t → it.hasFace = none) := by
  refine ⟨by simp [fairyRing], fun it hmem => ?_, fun it hmem => ?_⟩
  · obtain ⟨i, -, rfl⟩ := List.mem_map.mp hmem
    exact ringItem_hasFace i
  · rcases hmem with h | h | h | h
    · obtain ⟨i, -, d, -, hsome⟩ := mem_clusterPhase h
      exact (clusterItem_some hsome).2.2.2.1
    · obtain ⟨i, -, rfl⟩ := mem_scatterPhase h
      exact (scatterItem_type_hasFace (t.scatters i)).2
    · obtain ⟨i, -, rfl⟩ := mem_fillerPhase h
      exact (fillerItem_shape (t.fillers i)).2.2.2.2
    · obtain ⟨i, -, rfl⟩ := mem_grassPhase h
      rfl

/-- Witness for C9: in the typical run, the first fairy-ring record carries
`hasFace = some true` while the first scatter record carries no `hasFace`
key. -/
theorem c9_hasFace_witness :
    (ringItem 0).hasFace = some true ∧ (scatterItem cScatter).hasFace = none :=
  ⟨(c9_hasFace_only_ring baseTape).2.1 (ringItem 0)
      (List.mem_map_of_mem ringItem (show 0 ∈ List.range 6 by decide)),
    (c9_hasFace_only_ring baseTape).2.2 (scatterItem cScatter)
      (Or.inr (Or.inl (by
        unfold scatterPhase
        exact List.mem_map.mpr ⟨0, by decide, rfl⟩)))⟩

/-- No rhythm- or melody-family type is the sky type `"cloud"`. -/
lemma family_not_cloud :
    ∀ k, k < 5 → RHYTHM_TYPES.getD k "" ≠ "cloud" ∧
      MELODY_TYPES.getD k "" ≠ "cloud" := by decide

/-- No filler type is `"cloud"`. -/
lemma filler_not_cloud : ∀ k, k < 3 → FILLER_TYPES.getD k "" ≠ "cloud" := by
  decide

/-- A scatter item of type `"cloud"` comes from the cloud branch: altitude
`uniform(40, 70)`, a `size` key holding `uniform(1.5, 2.5)`, and no `scale`
key. -/
lemma scatterItem_cloud {d : ScatterDraw} (h : (scatterItem d).type = "cloud") :
    (scatterItem d).y = (d.yCloud : ℝ) ∧
    (scatterItem d).size = some (d.scale2 : ℝ) ∧
    (scatterItem d).scale = none := by
  by_cases hc : SCATTER_TYPES.getD d.typeIdx "" = "cloud"
  · unfold scatterItem
    rw [if_pos hc]
    exact ⟨rfl, rfl, rfl⟩
  · exact absurd ((scatterItem_type_hasFace d).1 ▸ h) hc

/-- C5: every sky-anchored (`"cloud"`) item of every run has altitude within
the declared 40–80 range, and carries a `size` key in place of a `scale`
key. -/
theorem c5_cloud_altitude (t : Tape) (ht : ValidTape t) :
    ∀ it ∈ generate_map t, it.type = "cloud" →
      (40 ≤ it.y ∧ it.y ≤ 80) ∧ it.size.isSome = true ∧ it.scale = none := by
  intro it hmem hty
  simp only [generate_map, List.mem_append] at hmem
  rcases hmem with ((((h | h) | h) | h) | h)
  · obtain ⟨i, -, rfl⟩ := List.mem_map.mp h
    exact ((by decide : ("mushroom" : String) ≠ "cloud") hty).elim
  · obtain ⟨i, -, d, hd, hsome⟩ := mem_clusterPhase h
    have hidx : d.typeIdx < 5 := ((ht.1 i).2.2.2.2 d hd).1
    have hty' := (clusterItem_some hsome).2.1 ▸ hty
    by_cases hr : (t.clusters i).isRhythm
    · rw [if_pos hr] at hty'
      exact absurd hty' (family_not_cloud d.typeIdx hidx).1
    · rw [if_neg hr] at hty'
      exact absurd hty' (family_not_cloud d.typeIdx hidx).2
  · obtain ⟨i, -, rfl⟩ := mem_scatterPhase h
    obtain ⟨hy, hsz, hsc⟩ := scatterItem_cloud hty
    have hv := ht.2.1 i
    have h40 : (40 : ℚ) ≤ (t.scatters i).yCloud := hv.2.2.2.2.1
    have h70 : (t.scatters i).yCloud ≤ 70 := hv.2.2.2.2.2.1
    refine ⟨⟨?_, ?_⟩, by rw [hsz]; rfl, hsc⟩
    · rw [hy]; exact_mod_cast h40
    · rw [hy]
      have : ((t.scatters i).yCloud : ℝ) ≤ 70 := by exact_mod_cast h70
      linarith
  · obtain ⟨i, -, rfl⟩ := mem_fillerPhase h
    have hidx : (t.fillers i).typeIdx < 3 := (ht.2.2.1 i).1
    have hty' := (fillerItem_shape (t.fillers i)).2.2.1 ▸ hty
    exact absurd hty' (filler_not_cloud (t.fillers i).typeIdx hidx)
  · obtain ⟨i, -, rfl⟩ := mem_grassPhase h
    exact ((by decide : ("grass" : String) ≠ "cloud") hty).elim

/-- A scatter draw that picks the `"cloud"` type, with altitude draw 50 and
size draw 2. -/
def cloudScatter : ScatterDraw := ⟨6, fun _ => (0, 72), 1, 50, 2⟩

/-- The typical tape with every scatter draw picking a cloud. -/
def cloudTape : Tape := { baseTape with scatters := fun _ => cloudScatter }

/-- The cloud tape satisfies every range guarantee. -/
lemma cloudTape_valid : ValidTape cloudTape := by
  refine ⟨baseTape_valid.1, fun i => ?_, baseTape_valid.2.2.1,
    baseTape_valid.2.2.2⟩
  exact ⟨by norm_num [cloudTape, cloudScatter],
    fun n => ⟨by norm_num [cloudTape, cloudScatter],
      by norm_num [cloudTape, cloudScatter]⟩,
    by norm_num [cloudTape, cloudScatter], by norm_num [cloudTape, cloudScatter],
    by norm_num [cloudTape, cloudScatter], by norm_num [cloudTape, cloudScatter],
    by norm_num [cloudTape, cloudScatter], by norm_num [cloudTape, cloudScatter]⟩

/-- Witness for C5: the cloud emitted first by the cloud run has altitude in
range and a `size` key, no `scale` key. -/
theorem c5_cloud_witness :
    (40 ≤ (scatterItem cloudScatter).y ∧ (scatterItem cloudScatter).y ≤ 80) ∧
    (scatterItem cloudScatter).size.isSome = true ∧
    (scatterItem cloudScatter).scale = none :=
  c5_cloud_altitude cloudTape cloudTape_valid (scatterItem cloudScatter)
    (List.mem_append_left _ (List.mem_append_left _ (List.mem_append_right _
      (by
        unfold scatterPhase
        exact List.mem_map.mpr ⟨0, by decide, rfl⟩))))
    (by rw [(scatterItem_type_hasFace cloudScatter).1]; rfl)

/-- Unfolding of one loop iteration. -/
lemma whileFuel_succ (acc : ℝ × ℝ → Prop) (s : ℕ → ℝ × ℚ) (n : ℕ) :
    whileFuel acc s (n + 1) =
      if acc (samplePos (s 0)) then some (samplePos (s 0))
      else whileFuel acc (fun k => s (k + 1)) n := rfl

/-- A loop whose first sample is accepted yields it within one unit of
fuel. -/
lemma whileFuel_one_of_accept {acc : ℝ × ℝ → Prop} {s : ℕ → ℝ × ℚ}
    (h : acc (samplePos (s 0))) : whileFuel acc s 1 = some (samplePos (s 0)) := by
  rw [whileFuel_succ, if_pos h]

/-- C10: in exact arithmetic the sampler's minimum radial distance of 20
implies the acceptance test (`d >= 20` gives `x^2 + z^2 = d^2 >= 400`), so
the scatter and filler rejection loops accept their first sample — one
iteration of fuel suffices and the loop's result is the first sample — and
both phases emit exactly 50 items on every run. -/
theorem c10_loops_one_iteration (t : Tape) (ht : ValidTape t) :
    (∀ (a : ℝ) (d : ℚ), 20 ≤ d →
      400 ≤ (samplePos (a, d)).1 ^ 2 + (samplePos (a, d)).2 ^ 2) ∧
    (∀ i, whileNotValid (t.scatters i).samples
        = samplePos ((t.scatters i).samples 0) ∧
      whileFuel accept20 (t.scatters i).samples 1
        = some (samplePos ((t.scatters i).samples 0))) ∧
    (∀ i, whileNotValid (t.fillers i).samples
        = samplePos ((t.fillers i).samples 0) ∧
      whileFuel accept20 (t.fillers i).samples 1
        = some (samplePos ((t.fillers i).samples 0))) ∧
    (scatterPhase t).length = 50 ∧ (fillerPhase t).length = 50 := by
  refine ⟨fun a d hd => accept20_of_dist hd, fun i => ?_, fun i => ?_,
    by simp [scatterPhase], by simp [fillerPhase]⟩
  · have h0 : accept20 (samplePos ((t.scatters i).samples 0)) :=
      accept20_of_dist ((ht.2.1 i).2.1 0).1
    exact ⟨whileNotValid_eq_first h0, whileFuel_one_of_accept h0⟩
  · have h0 : accept20 (samplePos ((t.fillers i).samples 0)) :=
      accept20_of_dist ((ht.2.2.1 i).2.1 0).1
    exact ⟨whileNotValid_eq_first h0, whileFuel_one_of_accept h0⟩

/-- Witness for C10: on the typical run both rejecting phases emit exactly
50 items and the scatter loop returns its very first sample. -/
theorem c10_loops_witness :
    (scatterPhase baseTape).length = 50 ∧ (fillerPhase baseTape).length = 50 ∧
    whileNotValid cScatter.samples = samplePos (cScatter.samples 0) :=
  ⟨(c10_loops_one_iteration baseTape baseTape_valid).2.2.2.1,
    (c10_loops_one_iteration baseTape baseTape_valid).2.2.2.2,
    ((c10_loops_one_iteration baseTape baseTape_valid).2.1 0).1⟩

/-- The loop, as written, neither returns nor skips within any finite number
of attempts: it is still spinning after `n` attempts for every `n`. -/
def loopSpinsForever (acc : ℝ × ℝ → Prop) (s : ℕ → ℝ × ℚ) : Prop :=
  ∀ n, whileFuel acc s n = none

/-- A sample stream every element of which the radius-200 exclusion zone
rejects; each distance draw (30) lies in the sampler's legal range
`[20, 150]`. -/
def infeasibleStream : ℕ → ℝ × ℚ := fun _ => (0, 30)

/-- C2: the `while not valid:` loops of the scatter and filler phases carry
no attempt counter at all.  Instantiating the loop's acceptance test with an
exclusion geometry that leaves the sampling annulus infeasible (zone radius
200, sampler distances at most 150), the loop neither terminates within any
fixed bound of attempts nor raises any "unsatisfiable placement" skip: it
spins forever.  Every sample of the stream is inside the sampler's declared
range, so this is a legal draw sequence. -/
theorem c2_loop_unbounded :
    loopSpinsForever (acceptZone 200) infeasibleStream ∧
    (∀ n, 20 ≤ (infeasibleStream n).2 ∧ (infeasibleStream n).2 ≤ 150) := by
  constructor
  · intro n
    induction n with
    | zero => rfl
    | succ n ih =>
      rw [whileFuel_succ, if_neg]
      · exact ih
      · unfold acceptZone samplePos get_random_position infeasibleStream
        simp only [Real.cos_zero, Real.sin_zero]
        norm_num
  · intro n
    exact ⟨by norm_num [infeasibleStream], by norm_num [infeasibleStream]⟩

/-- A filler draw that picks a mushroom and wins the 10% giant roll, with
base scale draw 1. -/
def giantFiller : FillerDraw := ⟨0, fun _ => (0, 72), 1, false, true⟩

/-- The typical tape with every filler draw a giant mushroom of scale 1. -/
def c6Tape : Tape := { baseTape with fillers := fun _ => giantFiller }

/-- The giant-mushroom tape satisfies every range guarantee. -/
lemma c6Tape_valid : ValidTape c6Tape := by
  refine ⟨baseTape_valid.1, baseTape_valid.2.1, fun i => ?_,
    baseTape_valid.2.2.2⟩
  exact ⟨by norm_num [c6Tape, giantFiller],
    fun n => ⟨by norm_num [c6Tape, giantFiller],
      by norm_num [c6Tape, giantFiller]⟩,
    by norm_num [c6Tape, giantFiller], by norm_num [c6Tape, giantFiller]⟩

/-- C6 counterexample: a run whose first filler item is a mushroom assigned
the `"giant"` variant yet whose emitted scale is the unmultiplied base draw
1, which lies outside the claimed multiplied range
`1.5 * [0.7, 1.2] = [1.05, 1.8]`: the code applies no multiplier. -/
theorem c6_counterexample :
    ValidTape c6Tape ∧
    fillerItem giantFiller ∈ fillerPhase c6Tape ∧
    (fillerItem giantFiller).variant = some "giant" ∧
    (fillerItem giantFiller).scale = some 1 ∧
    ¬((1.05 : ℝ) ≤ 1 ∧ (1 : ℝ) ≤ 1.8) := by
  refine ⟨c6Tape_valid, ?_, rfl, ?_, by norm_num⟩
  · unfold fillerPhase
    exact List.mem_map.mpr ⟨0, by decide, rfl⟩
  · rw [(fillerItem_shape giantFiller).2.2.2.1]
    simp [giantFiller]

/-- C6 amended: every filler item — giant-variant mushrooms included —
keeps the unmultiplied base scale draw, so its scale lies in `[0.7, 1.2]`;
no 1.5 multiplier is applied anywhere in the filler phase. -/
theorem c6_filler_scale_unmultiplied (t : Tape) (ht : ValidTape t) :
    ∀ it ∈ fillerPhase t, ∀ s : ℝ, it.scale = some s →
      0.7 ≤ s ∧ s ≤ 1.2 := by
  intro it hmem s hs
  obtain ⟨i, -, rfl⟩ := mem_fillerPhase hmem
  rw [(fillerItem_shape (t.fillers i)).2.2.2.1] at hs
  obtain rfl := (Option.some_inj.mp hs).symm
  have h1 : (0.7 : ℚ) ≤ (t.fillers i).scale := (ht.2.2.1 i).2.2.1
  have h2 : (t.fillers i).scale ≤ 1.2 := (ht.2.2.1 i).2.2.2
  rify at h1 h2
  exact ⟨h1, h2⟩

/-- Witness for C6 (amended): the typical run's first filler item has scale
1, inside `[0.7, 1.2]`. -/
theorem c6_filler_scale_witness : (0.7 : ℝ) ≤ 1 ∧ (1 : ℝ) ≤ 1.2 :=
  c6_filler_scale_unmultiplied baseTape baseTape_valid (fillerItem cFiller)
    (by
      unfold fillerPhase
      exact List.mem_map.mpr ⟨0, by decide, rfl⟩)
    1
    (by rw [(fillerItem_shape cFiller).2.2.2.1]; simp [cFiller])

/-- An item lies strictly inside the fairy ring's bounding circle (center
`(60, -40)`, radius 12). -/
def insideRingCircle (it : Item) : Prop :=
  (it.x - 60) ^ 2 + (it.z - (-40)) ^ 2 < 12 ^ 2

/-- Cosine at the legal sampler angle `11 * pi / 6`. -/
lemma cos_eleven_pi_six : Real.cos (11 * Real.pi / 6) = Real.sqrt 3 / 2 := by
  have h : 11 * Real.pi / 6 = 2 * Real.pi - Real.pi / 6 := by ring
  rw [h, Real.cos_sub, Real.cos_two_pi, Real.sin_two_pi, Real.cos_pi_div_six,
    Real.sin_pi_div_six]
  ring

/-- Sine at the legal sampler angle `11 * pi / 6`. -/
lemma sin_eleven_pi_six : Real.sin (11 * Real.pi / 6) = -(1 / 2) := by
  have h : 11 * Real.pi / 6 = 2 * Real.pi - Real.pi / 6 := by ring
  rw [h, Real.sin_sub, Real.cos_two_pi, Real.sin_two_pi, Real.cos_pi_div_six,
    Real.sin_pi_div_six]
  ring

/-- A scatter draw whose every loop sample is at angle `11 * pi / 6` and
distance 72: the resulting point `(36 * sqrt 3, -36)` passes the origin
check yet lies inside the fairy ring's circle. -/
noncomputable def ringZoneScatter : ScatterDraw :=
  ⟨0, fun _ => (11 * Real.pi / 6, 72), 1, 50, 2⟩

/-- The typical tape with every scatter draw aimed into the fairy ring. -/
noncomputable def c3Tape : Tape :=
  { baseTape with scatters := fun _ => ringZoneScatter }

/-- The aimed tape satisfies every range guarantee. -/
lemma c3Tape_valid : ValidTape c3Tape := by
  refine ⟨baseTape_valid.1, fun i => ?_, baseTape_valid.2.2.1,
    baseTape_valid.2.2.2⟩
  exact ⟨by norm_num [c3Tape, ringZoneScatter],
    fun n => ⟨by norm_num [c3Tape, ringZoneScatter],
      by norm_num [c3Tape, ringZoneScatter]⟩,
    by norm_num [c3Tape, ringZoneScatter], by norm_num [c3Tape, ringZoneScatter],
    by norm_num [c3Tape, ringZoneScatter], by norm_num [c3Tape, ringZoneScatter],
    by norm_num [c3Tape, ringZoneScatter], by norm_num [c3Tape, ringZoneScatter]⟩

/-- The aimed scatter item sits at exactly `(36 * sqrt 3, -36)`. -/
lemma ringZoneScatter_pos :
    (scatterItem ringZoneScatter).x = 36 * Real.sqrt 3 ∧
    (scatterItem ringZoneScatter).z = -36 := by
  obtain ⟨hx, hz⟩ := scatterItem_xz ringZoneScatter
  have hloop := (whileNotValid_of_valid (s := ringZoneScatter.samples)
    (fun n => ⟨by norm_num [ringZoneScatter], by norm_num [ringZoneScatter]⟩)).1
  rw [hx, hz, hloop]
  unfold ringZoneScatter samplePos get_random_position
  simp only [cos_eleven_pi_six, sin_eleven_pi_six]
  norm_num
  ring

/-- C3 counterexample: the fairy ring's circle is registered nowhere — on
the aimed (and fully range-legal) run, a scatter item lands strictly inside the
ring's bounding circle, so later phases do not keep clear of it. -/
theorem c3_counterexample :
    ValidTape c3Tape ∧
    scatterItem ringZoneScatter ∈ scatterPhase c3Tape ∧
    scatterItem ringZoneScatter ∈ generate_map c3Tape ∧
    insideRingCircle (scatterItem ringZoneScatter) := by
  have hmem : scatterItem ringZoneScatter ∈ scatterPhase c3Tape := by
    unfold scatterPhase
    exact List.mem_map.mpr ⟨0, by decide, rfl⟩
  refine ⟨c3Tape_valid, hmem, ?_, ?_⟩
  · exact List.mem_append_left _ (List.mem_append_left _
      (List.mem_append_right _ hmem))
  · obtain ⟨hx, hz⟩ := ringZoneScatter_pos
    unfold insideRingCircle
    rw [hx, hz]
    have hs3 : Real.sqrt 3 ^ 2 = 3 := Real.sq_sqrt (by norm_num)
    have hs3nn : (0 : ℝ) ≤ Real.sqrt 3 := Real.sqrt_nonneg 3
    have hlow : (1.705 : ℝ) < Real.sqrt 3 := by nlinarith [hs3, hs3nn]
    have hhigh : Real.sqrt 3 < 1.8 := by nlinarith [hs3, hs3nn]
    nlinarith [hlow, hhigh]

/-- C3 amended: the code maintains no exclusion-zone set; after the fairy
ring is emitted, the cluster, scatter and filler phases enforce only the
fixed origin constraint `x^2 + z^2 >= 400` and are free to place items
inside the ring's circle. -/
theorem c3_only_origin_exclusion (t : Tape) (ht : ValidTape t) :
    ∀ it, it ∈ clusterPhase t ∨ it ∈ scatterPhase t ∨ it ∈ fillerPhase t →
      400 ≤ it.x ^ 2 + it.z ^ 2 := by
  intro it h
  rcases h with h | h | h
  · exact cluster_safe h
  · exact scatter_safe ht h
  · exact filler_safe ht h

/-- Witness for C3 (amended): the aimed scatter item still satisfies the
origin constraint — it is excluded from nothing else. -/
theorem c3_only_origin_witness :
    400 ≤ (scatterItem ringZoneScatter).x ^ 2 +
      (scatterItem ringZoneScatter).z ^ 2 :=
  c3_only_origin_exclusion c3Tape c3Tape_valid (scatterItem ringZoneScatter)
    (Or.inr (Or.inl (by
      unfold scatterPhase
      exact List.mem_map.mpr ⟨0, by decide, rfl⟩)))

/-- State of the destination of the final write, as the Python runtime sees
it: whether the parent directory (`assets/`) exists, whether the destination
path may be opened for writing, and the artifact currently visible at the
path (`none` = no file; the content is the deserialized record list). -/
structure FileSysState where
  dirOk : Bool
  writable : Bool
  contents : Option (List Item)

/-- The two write-failure modes of the claim. -/
inductive WriteErr where
  | parentMissing
  | permissionDenied

/-- Python's `open(OUTPUT_FILE, "w")`: raises `FileNotFoundError` when the
parent directory is missing and `PermissionError` when the path is not
writable — in both cases before touching the file — and otherwise truncates
the destination to empty. -/
def openW (fs : FileSysState) : Except WriteErr FileSysState :=
  if fs.dirOk = false then .error .parentMissing
  else if fs.writable = false then .error .permissionDenied
  else .ok { fs with contents := some [] }

/-- `json.dump(items, f, indent=2)` on the successfully opened handle:
leaves the full record sequence at the path. -/
def jsonDump (fs : FileSysState) (items : List Item) : FileSysState :=
  { fs with contents := some items }

/-- The terminal write step of `generate_map`:
`with open(OUTPUT_FILE, "w") as f: json.dump(items, f, indent=2)`, executed
once, after all five generation phases have produced `items`.  An exception
from `open` propagates (the script has no handler): the run aborts with the
error and the file system is left as it was. -/
noncomputable def runGenerateMap (fs : FileSysState) (t : Tape) :
    FileSysState × Option WriteErr :=
  match openW fs with
  | .error e => (fs, some e)
  | .ok fs' => (jsonDump fs' (generate_map t), none)

/-- C7: on every run that can open the destination, the artifact written in
the single terminal step is exactly the concatenation, in fixed phase order,
of the fairy ring, the cluster items, the global scatter items, the filler
items and the grass: one ordered sequence, written complete, with ground
cover last. -/
theorem c7_manifest_order (fs : FileSysState) (t : Tape)
    (hdir : fs.dirOk = true) (hw : fs.writable = true) :
    (runGenerateMap fs t).2 = none ∧
    (runGenerateMap fs t).1.contents =
      some (fairyRing ++ clusterPhase t ++ scatterPhase t ++ fillerPhase t ++
        grassPhase t) ∧
    (∀ it ∈ grassPhase t, it.type = "grass") := by
  have hopen : openW fs = .ok { fs with contents := some [] } := by
    unfold openW
    rw [if_neg (by simp [hdir]), if_neg (by simp [hw])]
  refine ⟨?_, ?_, fun it hmem => ?_⟩
  · unfold runGenerateMap
    rw [hopen]
  · unfold runGenerateMap
    rw [hopen]
    rfl
  · obtain ⟨i, -, rfl⟩ := mem_grassPhase hmem
    rfl

/-- Witness for C7: a concrete writable file system receives the complete
concatenated manifest of the typical run with no error. -/
theorem c7_manifest_witness :
    (runGenerateMap ⟨true, true, none⟩ baseTape).2 = none ∧
    (runGenerateMap ⟨true, true, none⟩ baseTape).1.contents =
      some (fairyRing ++ clusterPhase baseTape ++ scatterPhase baseTape ++
        fillerPhase baseTape ++ grassPhase baseTape) :=
  ⟨(c7_manifest_order ⟨true, true, none⟩ baseTape rfl rfl).1,
    (c7_manifest_order ⟨true, true, none⟩ baseTape rfl rfl).2.1⟩

/-- C8: when the final write fails because the destination is unwritable or
its parent directory is missing, `open` raises before touching the file, the
exception aborts the run, and the file system — in particular anything
visible at the output path — is exactly what it was: no partial artifact is
left behind. -/
theorem c8_write_failure_atomic (fs : FileSysState) (t : Tape)
    (h : fs.dirOk = false ∨ fs.writable = false) :
    (runGenerateMap fs t).1 = fs ∧ (runGenerateMap fs t).2.isSome = true := by
  unfold runGenerateMap
  rcases h with h | h
  · rw [show openW fs = .error .parentMissing by unfold openW; rw [if_pos h]]
    exact ⟨rfl, rfl⟩
  · by_cases hd : fs.dirOk = false
    · rw [show openW fs = .error .parentMissing by unfold openW; rw [if_pos hd]]
      exact ⟨rfl, rfl⟩
    · rw [show openW fs = .error .permissionDenied by
        unfold openW; rw [if_neg hd, if_pos h]]
      exact ⟨rfl, rfl⟩

/-- Witness for C8: with the parent directory missing, the run errors out
and the (empty) file system is untouched. -/
theorem c8_write_failure_witness :
    (runGenerateMap ⟨false, true, none⟩ baseTape).1 = ⟨false, true, none⟩ ∧
    (runGenerateMap ⟨false, true, none⟩ baseTape).2.isSome = true :=
  c8_write_failure_atomic ⟨false, true, none⟩ baseTape (Or.inl rfl)

end CandyWorld
